import Mathlib

/-!
Shallow embedding of the main-process logic of the yt-dlp desktop downloader
(`src/unnamed/part_000`, the current revision of `src/electron/main.ts`).

The embedded pieces are the pure data transformations the main process
performs: the format classifier (`processVideoFormats`, `processAudioFormats`,
the best-audio-size computation), the download-history ledger
(`addDownloadToHistory`), filename sanitization (`sanitizedTitle`), the
startup binary provisioning decision, the `get-video-info` request handler's
error conversion, the `set-download-path` handler, and the state updates of
the download `close` handler together with the `will-quit` process reaper.

TypeScript values are mapped as follows: optional numeric fields become
`Option Nat` (byte sizes, pixel heights) or `Option ℚ` (audio bitrates, which
may be fractional); JavaScript's falsy-based `||` chains become explicit
helpers (`jsOrOptNat`, `jsOrStr`) that treat `0` / `""` / `undefined` as
falsy, exactly as the engine does; `Array.prototype.sort` (stable in modern
engines) is embedded as `List.insertionSort`, which is likewise stable.
-/

namespace YDownload

/-- The `'mp4' | 'mp3'` union type used by the main process. -/
inductive MediaType where
  | mp4
  | mp3
deriving DecidableEq, Repr

/-- One entry of `yt-dlp --dump-json`'s format list (`YTDlpFormat` in
`src/electron/yt-dlp-types.ts`). -/
structure YTDlpFormat where
  format_id : String
  format_note : Option String := none
  resolution : Option String := none
  height : Option Nat := none
  ext : String
  vcodec : String
  acodec : String
  filesize : Option Nat := none
  filesize_approx : Option Nat := none
  abr : Option ℚ := none
deriving DecidableEq, Repr

/-- The UI-facing `ProcessedFormat` record of `main.ts`. -/
structure ProcessedFormat where
  itag : String
  quality : String
  container : String
  contentLength : Option String
  type : MediaType
deriving DecidableEq, Repr

/-- JavaScript `a || b` on an optional number, where `0` and `undefined` are
falsy: used for the `f.filesize || f.filesize_approx` chains. -/
def jsOrOptNat (a b : Option Nat) : Option Nat :=
  match a with
  | some n => if n = 0 then b else some n
  | none => b

/-- JavaScript `a || b` where `a` is an optional string (`undefined` and `""`
are falsy) and `b` a string: used for the `qualityLabel || 'Unknown'` chain. -/
def jsOrStr (a : Option String) (b : String) : String :=
  match a with
  | some s => if s = "" then b else s
  | none => b

/-- JavaScript `a || b` on two optional strings: used for
`match-result || (f.height ? ... : f.resolution)`. -/
def jsOrOptStr (a b : Option String) : Option String :=
  match a with
  | some s => if s = "" then b else some s
  | none => b

/-- `f.filesize || f.filesize_approx || 0`, the byte size the code assigns to
a descriptor (both in `processVideoFormats` and for the best audio format). -/
def filesizeOrZero (f : YTDlpFormat) : Nat :=
  (jsOrOptNat f.filesize f.filesize_approx).getD 0

/-- `f.height ?? 0`, the sort key of the video comparator. -/
def heightOf (f : YTDlpFormat) : Nat :=
  f.height.getD 0

/-- `f.abr ?? 0`, the sort key of the audio comparators. -/
def abrOf (f : YTDlpFormat) : ℚ :=
  f.abr.getD 0

/-- The descending-by-height comparator `(a, b) => (b.height ?? 0) - (a.height ?? 0)`
viewed as the total preorder it sorts by. -/
def heightGe (a b : YTDlpFormat) : Prop :=
  heightOf b ≤ heightOf a

instance : DecidableRel heightGe :=
  fun a b => inferInstanceAs (Decidable (heightOf b ≤ heightOf a))

instance : IsTotal YTDlpFormat heightGe :=
  ⟨fun a b => Nat.le_total (heightOf b) (heightOf a)⟩

instance : IsTrans YTDlpFormat heightGe :=
  ⟨fun _ _ _ hab hbc => le_trans hbc hab⟩

/-- The descending-by-bitrate comparator `(a, b) => (b.abr ?? 0) - (a.abr ?? 0)`
viewed as the total preorder it sorts by. -/
def abrGe (a b : YTDlpFormat) : Prop :=
  abrOf b ≤ abrOf a

instance : DecidableRel abrGe :=
  fun a b => inferInstanceAs (Decidable (abrOf b ≤ abrOf a))

instance : IsTotal YTDlpFormat abrGe :=
  ⟨fun a b => le_total (abrOf b) (abrOf a)⟩

instance : IsTrans YTDlpFormat abrGe :=
  ⟨fun _ _ _ hab hbc => le_trans hbc hab⟩

/-- The filter of `processVideoFormats`:
`f.vcodec !== 'none' && f.acodec === 'none' && f.ext === 'mp4' && f.height`
(`f.height` is truthy exactly when present and nonzero). -/
def videoPred (f : YTDlpFormat) : Bool :=
  f.vcodec != "none" && f.acodec == "none" && f.ext == "mp4" &&
    (match f.height with
     | some h => h != 0
     | none => false)

/-- The filter of `processAudioFormats`:
`f.vcodec === 'none' && f.acodec !== 'none' && (f.abr ?? 0) > 0`. -/
def audioPred (f : YTDlpFormat) : Bool :=
  f.vcodec == "none" && f.acodec != "none" && decide (0 < abrOf f)

/-- The filter of the best-audio computation in the `get-video-info` handler:
`f.vcodec !== 'none' && f.acodec !== 'none' && (f.abr ?? 0) > 0`. -/
def bestAudioPred (f : YTDlpFormat) : Bool :=
  f.vcodec != "none" && f.acodec != "none" && decide (0 < abrOf f)

/-- Leftmost match of the regex `/\d+p/` on a character list: the first
maximal digit run that is immediately followed by `'p'`, together with that
`'p'`. Mirrors `format_note.match(/\d+p/)?.[0]`. -/
def findDigitsP : List Char → Option String
  | [] => none
  | c :: cs =>
    if c.isDigit then
      match List.span Char.isDigit (c :: cs) with
      | (ds, 'p' :: _) => some (String.mk (ds ++ ['p']))
      | _ => findDigitsP cs
    else findDigitsP cs

/-- The quality-label expression of `processVideoFormats`:
`f.format_note?.match(/\d+p/)?.[0] || (f.height ? height + 'p' : f.resolution)`. -/
def qualityLabel (f : YTDlpFormat) : Option String :=
  jsOrOptStr (f.format_note.bind (fun note => findDigitsP note.data))
    (match f.height with
     | some h => if h != 0 then some (toString h ++ "p") else f.resolution
     | none => f.resolution)

/-- The `.map` body of `processVideoFormats`, given the precomputed
best-audio size. -/
def mkVideoProcessed (bestAudioSize : Nat) (f : YTDlpFormat) : ProcessedFormat :=
  let videoSize := filesizeOrZero f
  let totalSize := videoSize + bestAudioSize
  { itag := f.format_id
    quality := jsOrStr (qualityLabel f) "Unknown"
    container := f.ext
    contentLength := if 0 < totalSize then some (toString totalSize) else none
    type := MediaType.mp4 }

/-- `seenResolutions`-based second filter of `processVideoFormats`: keep a
format only if its height was not seen before (first occurrence wins). -/
def dedupByHeight : List YTDlpFormat → List Nat → List YTDlpFormat
  | [], _ => []
  | f :: fs, seen =>
    if heightOf f ∈ seen then dedupByHeight fs seen
    else f :: dedupByHeight fs (heightOf f :: seen)

/-- The list of formats `processVideoFormats` keeps (after its filter, the
stable descending-by-height sort, and the seen-resolutions dedup), before the
final `.map`. -/
def videoKept (formats : List YTDlpFormat) : List YTDlpFormat :=
  dedupByHeight (List.insertionSort heightGe (formats.filter videoPred)) []

/-- `processVideoFormats(formats, bestAudioSize)` of `main.ts`. -/
def processVideoFormats (formats : List YTDlpFormat) (bestAudioSize : Nat) :
    List ProcessedFormat :=
  (videoKept formats).map (mkVideoProcessed bestAudioSize)

/-- JavaScript `Math.round` on a rational: `⌊q + 1/2⌋`, computed as the
floor division `(2·num + den) ⌊/⌋ (2·den)` so that it evaluates by kernel
reduction. -/
def jsMathRound (q : ℚ) : ℤ :=
  Int.fdiv (2 * q.num + q.den) (2 * q.den)

/-- The `.map` body of `processAudioFormats`. -/
def mkAudioProcessed (f : YTDlpFormat) : ProcessedFormat :=
  { itag := f.format_id
    quality := toString (jsMathRound (abrOf f)) ++ "kbps"
    container := f.ext
    contentLength := (jsOrOptNat f.filesize f.filesize_approx).map toString
    type := MediaType.mp3 }

/-- The list of formats `processAudioFormats` keeps (filter, stable
descending-by-bitrate sort, `slice(0, 3)`), before the final `.map`. -/
def audioKept (formats : List YTDlpFormat) : List YTDlpFormat :=
  (List.insertionSort abrGe (formats.filter audioPred)).take 3

/-- `processAudioFormats(formats)` of `main.ts`. -/
def processAudioFormats (formats : List YTDlpFormat) : List ProcessedFormat :=
  (audioKept formats).map mkAudioProcessed

/-- The `bestAudioSize` computation of the `get-video-info` handler:
`sorted-filtered[0]?.filesize || ...?.filesize_approx || 0`. -/
def bestAudioSize (formats : List YTDlpFormat) : Nat :=
  match List.insertionSort abrGe (formats.filter bestAudioPred) with
  | [] => 0
  | f :: _ => filesizeOrZero f

/-- The persisted `DownloadHistoryItem` record. -/
structure DownloadHistoryItem where
  id : String
  title : String
  filePath : String
  type : MediaType
  downloadedAt : String
deriving DecidableEq, Repr

/-- `addDownloadToHistory(item)` as a pure function on the stored
`downloadHistory` list: filter out entries with the same `filePath`,
`unshift` the new item, `slice(0, 50)`. -/
def addDownloadToHistory (history : List DownloadHistoryItem)
    (item : DownloadHistoryItem) : List DownloadHistoryItem :=
  (item :: history.filter (fun h => h.filePath != item.filePath)).take 50

/-- Distinct-file-path relation between two history items. -/
def pathNe (a b : DownloadHistoryItem) : Prop :=
  a.filePath ≠ b.filePath

instance : DecidableRel pathNe :=
  fun a b => inferInstanceAs (Decidable (a.filePath ≠ b.filePath))

/-- The character class of the sanitization regex `/[\\/:\*\?"<>\|]/g`. -/
def forbiddenFilenameChars : List Char :=
  ['\\', '/', ':', '*', '?', '"', '<', '>', '|']

/-- Membership test in the sanitization character class. -/
def isFilenameForbidden (c : Char) : Bool :=
  forbiddenFilenameChars.contains c

/-- `title.replace(/[\\/:\*\?"<>\|]/g, '')` of the `download-video` handler. -/
def sanitizedTitle (title : String) : String :=
  String.mk (title.data.filter (fun c => !isFilenameForbidden c))

/-- One observable startup action of the provisioning block in
`app.whenReady`. -/
inductive StartupEffect where
  | log (message : String)
  | fetchFromGithub (dest : String)
deriving DecidableEq, Repr

/-- Is a startup effect a release-distribution fetch? -/
def isFetch : StartupEffect → Bool
  | StartupEffect.fetchFromGithub _ => true
  | _ => false

/-- The binary-provisioning block of `app.whenReady`:
`if (fs.existsSync(ytDlpPath)) { log } else { await YtDlpWrap.downloadFromGithub(ytDlpPath) }`,
as the list of effects it performs, given whether the file exists. -/
def provisionBinary (binaryExists : Bool) (ytDlpPath : String) : List StartupEffect :=
  if binaryExists then
    [StartupEffect.log "yt-dlp binary already exists. Skipping download check.",
     StartupEffect.log "yt-dlp binary is ready."]
  else
    [StartupEffect.log "yt-dlp binary not found. Downloading from GitHub...",
     StartupEffect.fetchFromGithub ytDlpPath,
     StartupEffect.log "yt-dlp binary is ready."]

/-- `YTDlpMetadata` of `src/electron/yt-dlp-types.ts`. -/
structure YTDlpMetadata where
  title : String
  thumbnail : String
  formats : List YTDlpFormat
deriving DecidableEq, Repr

/-- A JavaScript thrown value: either an `Error` instance (carrying a
`message`) or any other value. -/
inductive ThrownValue where
  | errorObj (message : String)
  | nonError (descr : String)
deriving DecidableEq, Repr

/-- What the `get-video-info` handler returns to the renderer: either the
`{ title, thumbnail, formats }` object or the `{ error }` object. -/
inductive VideoInfoResult where
  | ok (title : String) (thumbnail : String) (formats : List ProcessedFormat)
  | errorResult (error : String)
deriving DecidableEq, Repr

/-- `error instanceof Error ? error.message : '알 수 없는 오류가 발생했습니다.'`. -/
def errorMessageOf : ThrownValue → String
  | ThrownValue.errorObj m => m
  | ThrownValue.nonError _ => "알 수 없는 오류가 발생했습니다."

/-- The `get-video-info` handler, with the external metadata fetch's outcome
(the only effect) passed in: on success it classifies the formats, on failure
it catches and returns the `{ error }` object instead of rethrowing. -/
def getVideoInfoHandler (fetchOutcome : Except ThrownValue YTDlpMetadata) :
    VideoInfoResult :=
  match fetchOutcome with
  | Except.ok metadata =>
    let size := bestAudioSize metadata.formats
    VideoInfoResult.ok metadata.title metadata.thumbnail
      (processVideoFormats metadata.formats size ++ processAudioFormats metadata.formats)
  | Except.error e => VideoInfoResult.errorResult (errorMessageOf e)

/-- The persisted electron-store state (`StoreSchema`). -/
structure StoreState where
  downloadPath : String
  downloadHistory : List DownloadHistoryItem
deriving DecidableEq, Repr

/-- The `set-download-path` handler, with the directory dialog's outcome
passed in: `if (!canceled && filePaths.length > 0)` persist and return
`filePaths[0]`, otherwise leave the store untouched and return the stored
path. Returns (reply to the renderer, store after the call). -/
def setDownloadPathHandler (canceled : Bool) (filePaths : List String)
    (store : StoreState) : String × StoreState :=
  match canceled, filePaths with
  | false, selectedPath :: _ =>
    (selectedPath, { store with downloadPath := selectedPath })
  | _, _ => (store.downloadPath, store)

/-- A push notification sent to the renderer over `webContents.send`. -/
inductive UiNotification where
  | downloadProgress (itag : String) (percent : ℚ)
  | downloadError (itag : String) (message : String)
  | downloadComplete (itag : String) (filePath : String)
deriving DecidableEq, Repr

/-- The main-process state observable by the download event handlers:
the persisted history, the `activeDownloadProcesses` set (as a list of
process ids), which processes the `will-quit` reaper has force-killed,
and the notifications sent to the renderer so far. -/
structure MainState where
  downloadHistory : List DownloadHistoryItem
  activeDownloads : List Nat
  killedAtShutdown : List Nat
  sent : List UiNotification
deriving DecidableEq, Repr

/-- The `will-quit` reaper: every process in `activeDownloadProcesses`
receives a forceful kill (tree-kill with `SIGKILL` fallback on Windows,
`SIGKILL` elsewhere). The set itself is not cleared; the kills are recorded. -/
def willQuitReaper (s : MainState) : MainState :=
  { s with killedAtShutdown := s.killedAtShutdown ++ s.activeDownloads }

/-- The `close` handler of a download process in the `download-video`
handler: send `download-complete`, drop the process from
`activeDownloadProcesses`, and append the history item. The source installs
this unconditionally; nothing in it consults whether the process was killed
by the `will-quit` reaper. -/
def onDownloadClose (procId : Nat) (itag filePath : String)
    (item : DownloadHistoryItem) (s : MainState) : MainState :=
  { s with
    sent := s.sent ++ [UiNotification.downloadComplete itag filePath]
    activeDownloads := s.activeDownloads.erase procId
    downloadHistory := addDownloadToHistory s.downloadHistory item }

/-- The own-size formula as the specification words it: the exact byte size
if present, else the approximate byte size, else 0. This follows the spec's
words, not the code: the code's `f.filesize || f.filesize_approx || 0` also
skips a present-but-zero exact size, because `0` is falsy in JavaScript. -/
def claimOwnSize (f : YTDlpFormat) : Nat :=
  match f.filesize with
  | some n => n
  | none => f.filesize_approx.getD 0

/-- Concrete descriptors of the spec's video example: two 1080p video-only
mp4 streams (sizes 500 and 400) and one 720p one (size 200). -/
def exV1 : YTDlpFormat :=
  { format_id := "A", height := some 1080, ext := "mp4", vcodec := "x",
    acodec := "none", filesize := some 500 }

def exV2 : YTDlpFormat :=
  { format_id := "B", height := some 1080, ext := "mp4", vcodec := "x",
    acodec := "none", filesize := some 400 }

def exV3 : YTDlpFormat :=
  { format_id := "C", height := some 720, ext := "mp4", vcodec := "x",
    acodec := "none", filesize := some 200 }

/-- Two audio-only descriptors with the same 128 kbps bitrate. -/
def exA1 : YTDlpFormat :=
  { format_id := "a1", ext := "webm", vcodec := "none", acodec := "opus",
    abr := some 128, filesize := some 1000 }

def exA2 : YTDlpFormat :=
  { format_id := "a2", ext := "webm", vcodec := "none", acodec := "opus",
    abr := some 128, filesize := some 900 }

/-- A video-only descriptor whose exact size is present but zero, with a
nonzero approximate size. -/
def exZeroSize : YTDlpFormat :=
  { format_id := "V", height := some 720, ext := "mp4", vcodec := "avc",
    acodec := "none", filesize := some 0, filesize_approx := some 7 }

/-- A muxed (video+audio) descriptor qualifying for the best-audio pick. -/
def exMux : YTDlpFormat :=
  { format_id := "M", ext := "mp4", vcodec := "avc", acodec := "aac",
    abr := some 96, filesize := some 300 }

/-- The history item being appended in the spec's history example. -/
def exItemC2 : DownloadHistoryItem :=
  { id := "new", title := "clip", filePath := "/a/b.mp4",
    type := MediaType.mp4, downloadedAt := "2024-02-02T00:00:00.000Z" }

/-- An older history entry with the same path as `exItemC2`. -/
def exOldC2 : DownloadHistoryItem :=
  { id := "old", title := "clip-old", filePath := "/a/b.mp4",
    type := MediaType.mp4, downloadedAt := "2023-01-01T00:00:00.000Z" }

/-- A history entry with an unrelated path, indexed by a suffix. -/
def exOther (n : Nat) : DownloadHistoryItem :=
  { id := toString n, title := "other", filePath := "/c/" ++ toString n ++ ".mp4",
    type := MediaType.mp3, downloadedAt := "2023-06-01T00:00:00.000Z" }

/-- A stored history in which the item sharing `exItemC2`'s path sits at
position 3. -/
def exHistC2 : List DownloadHistoryItem :=
  [exOther 0, exOther 1, exOther 2, exOldC2]

/-- 51 history items with pairwise-distinct file paths. -/
def exManyItems : List DownloadHistoryItem :=
  (List.range 51).map (fun n =>
    { id := toString n, title := "t", filePath := "/p/" ++ toString n,
      type := MediaType.mp4, downloadedAt := "2024-01-01T00:00:00.000Z" })

/-- A main-process state with one live download process (pid 7). -/
def exShutdownState : MainState :=
  { downloadHistory := [], activeDownloads := [7], killedAtShutdown := [], sent := [] }

/-- The history item the close handler of pid 7 would record. -/
def exKilledItem : DownloadHistoryItem :=
  { id := "1700000000000-137", title := "video", filePath := "/dl/video.mp4",
    type := MediaType.mp4, downloadedAt := "2024-01-01T00:00:00.000Z" }

/-- A stored configuration state. -/
def exStore : StoreState :=
  { downloadPath := "/home/u/Downloads", downloadHistory := [] }

/-! ### Helper lemmas -/

theorem dedupByHeight_sublist :
    ∀ (l : List YTDlpFormat) (seen : List Nat),
      List.Sublist (dedupByHeight l seen) l := by
  intro l
  induction l with
  | nil => intro seen; simp [dedupByHeight]
  | cons f fs ih =>
    intro seen
    rw [dedupByHeight]
    split
    · exact (ih seen).cons f
    · exact (ih (heightOf f :: seen)).cons₂ f

theorem heightOf_not_mem_seen :
    ∀ (l : List YTDlpFormat) (seen : List Nat) (x : YTDlpFormat),
      x ∈ dedupByHeight l seen → heightOf x ∉ seen := by
  intro l
  induction l with
  | nil => intro seen x hx; simp [dedupByHeight] at hx
  | cons f fs ih =>
    intro seen x hx
    rw [dedupByHeight] at hx
    split at hx
    · exact ih seen x hx
    · rcases List.mem_cons.mp hx with rfl | hx'
      · assumption
      · intro hmem
        exact ih (heightOf f :: seen) x hx' (List.mem_cons_of_mem _ hmem)

theorem dedupByHeight_pairwise_ne :
    ∀ (l : List YTDlpFormat) (seen : List Nat),
      List.Pairwise (fun a b => heightOf a ≠ heightOf b) (dedupByHeight l seen) := by
  intro l
  induction l with
  | nil => intro seen; simp [dedupByHeight]
  | cons f fs ih =>
    intro seen
    rw [dedupByHeight]
    split
    · exact ih seen
    · refine List.pairwise_cons.mpr ⟨?_, ih (heightOf f :: seen)⟩
      intro x hx
      have := heightOf_not_mem_seen fs (heightOf f :: seen) x hx
      intro heq
      exact this (heq ▸ List.mem_cons_self _ _)

theorem videoKept_pairwise_gt (formats : List YTDlpFormat) :
    List.Pairwise (fun a b => heightOf b < heightOf a) (videoKept formats) := by
  have hsorted : List.Pairwise heightGe (videoKept formats) :=
    (List.sorted_insertionSort heightGe (formats.filter videoPred)).sublist
      (dedupByHeight_sublist _ [])
  have hne := dedupByHeight_pairwise_ne
    (List.insertionSort heightGe (formats.filter videoPred)) []
  exact (hsorted.and hne).imp (fun h => lt_of_le_of_ne h.1 (fun he => h.2 he.symm))

/-! ### Claim theorems -/

/-- Claim C1: the video output of `processVideoFormats` keeps at most one
entry per distinct vertical resolution and is ordered by strictly decreasing
resolution (the kept formats' heights are pairwise strictly decreasing, and
the output is exactly their per-entry projection); on the spec's example
input with best-audio-size 50, the output is the 500-byte 1080p entry at
combined size 550 followed by the 720p entry at combined size 250. -/
theorem video_output_strictly_decreasing_per_resolution :
    (∀ formats : List YTDlpFormat,
      List.Pairwise (fun a b => heightOf b < heightOf a) (videoKept formats))
    ∧ (∀ (formats : List YTDlpFormat) (bas : Nat),
        processVideoFormats formats bas = (videoKept formats).map (mkVideoProcessed bas))
    ∧ processVideoFormats [exV1, exV2, exV3] 50 =
        [{ itag := "A", quality := "1080p", container := "mp4",
           contentLength := some "550", type := MediaType.mp4 },
         { itag := "C", quality := "720p", container := "mp4",
           contentLength := some "250", type := MediaType.mp4 }] :=
  ⟨videoKept_pairwise_gt, fun _ _ => rfl, by decide⟩

/-- Claim C2: `addDownloadToHistory` puts the new item at position 0, no
entry of the resulting tail carries the new item's path, distinctness of
stored paths is preserved, and on the concrete history where the same-path
item sits at position 3 the result is the new item in front of the three
unrelated entries. -/
theorem history_append_dedups_by_path :
    (∀ (history : List DownloadHistoryItem) (item : DownloadHistoryItem),
      (addDownloadToHistory history item).head? = some item
      ∧ (∀ h ∈ (addDownloadToHistory history item).tail, h.filePath ≠ item.filePath)
      ∧ (List.Pairwise pathNe history →
          List.Pairwise pathNe (addDownloadToHistory history item)))
    ∧ addDownloadToHistory exHistC2 exItemC2 = [exItemC2, exOther 0, exOther 1, exOther 2] := by
  refine ⟨fun history item => ⟨rfl, ?_, ?_⟩, by decide⟩
  · intro h hmem
    have hmem' : h ∈ history.filter (fun h => h.filePath != item.filePath) := by
      have : h ∈ (history.filter (fun h => h.filePath != item.filePath)).take 49 := hmem
      exact List.mem_of_mem_take this
    have hp : (h.filePath != item.filePath) = true := (List.mem_filter.mp hmem').2
    exact bne_iff_ne.mp hp
  · intro hpw
    refine List.Pairwise.sublist (List.take_sublist _ _) (List.pairwise_cons.mpr ⟨?_, ?_⟩)
    · intro x hx
      have hp : (x.filePath != item.filePath) = true := (List.mem_filter.mp hx).2
      exact (bne_iff_ne.mp hp).symm
    · exact hpw.sublist (List.filter_sublist history)

/-- Claim C3 counterexample: for a video descriptor whose exact size is
present but zero (approximate size 7) and no qualifying audio, the claim's
own-size formula ("exact byte size if present, else approximate, else 0")
plus the best-audio size totals 0 — so the claim requires an absent size
field — yet the code displays the combined size "7", because JavaScript's
`||` also skips a present-but-zero exact size. -/
theorem video_size_falsy_zero_counterexample :
    claimOwnSize exZeroSize + bestAudioSize [exZeroSize] = 0
    ∧ (processVideoFormats [exZeroSize] (bestAudioSize [exZeroSize])).map
        ProcessedFormat.contentLength = [some "7"] := by
  decide

/-- Claim C3 (amended): every video entry's displayed size is its own
code-computed size (exact byte size if present and nonzero, else approximate
byte size, else 0) plus the best-audio size, and the size field is absent
exactly when that total is zero; the best-audio size is 0 when no descriptor
has both codecs and positive bitrate, and otherwise is the
exact-or-approximate size (default 0) of a qualifying descriptor of maximal
bitrate. -/
theorem video_combined_size_correct :
    (∀ (formats : List YTDlpFormat) (pf : ProcessedFormat),
      pf ∈ processVideoFormats formats (bestAudioSize formats) →
      ∃ f, f ∈ formats ∧ videoPred f = true
        ∧ pf.contentLength =
            (if 0 < filesizeOrZero f + bestAudioSize formats
             then some (toString (filesizeOrZero f + bestAudioSize formats)) else none)
        ∧ (pf.contentLength = none ↔ filesizeOrZero f + bestAudioSize formats = 0))
    ∧ (∀ formats : List YTDlpFormat,
        (∀ f ∈ formats, bestAudioPred f = false) → bestAudioSize formats = 0)
    ∧ (∀ (formats : List YTDlpFormat) (g : YTDlpFormat),
        g ∈ formats → bestAudioPred g = true →
        ∃ b, b ∈ formats ∧ bestAudioPred b = true
          ∧ (∀ g', g' ∈ formats → bestAudioPred g' = true → abrOf g' ≤ abrOf b)
          ∧ bestAudioSize formats = filesizeOrZero b) := by
  refine ⟨?_, ?_, ?_⟩
  · intro formats pf hpf
    obtain ⟨f, hf, rfl⟩ := List.mem_map.mp hpf
    have hf1 : f ∈ List.insertionSort heightGe (formats.filter videoPred) :=
      (dedupByHeight_sublist _ []).mem hf
    have hf2 : f ∈ formats.filter videoPred := (List.mem_insertionSort heightGe).mp hf1
    have hf3 := List.mem_filter.mp hf2
    refine ⟨f, hf3.1, hf3.2, rfl, ?_⟩
    by_cases h : 0 < filesizeOrZero f + bestAudioSize formats
    · simp only [mkVideoProcessed, if_pos h]
      constructor
      · intro hsome; exact Option.noConfusion hsome
      · intro h0; omega
    · simp only [mkVideoProcessed, if_neg h]
      constructor
      · intro _; omega
      · intro _; trivial
  · intro formats h
    have hnil : formats.filter bestAudioPred = [] :=
      List.filter_eq_nil_iff.mpr (fun a ha => by simp [h a ha])
    simp [bestAudioSize, hnil]
  · intro formats g hg hgp
    have hgs : g ∈ List.insertionSort abrGe (formats.filter bestAudioPred) :=
      (List.mem_insertionSort abrGe).mpr (List.mem_filter.mpr ⟨hg, hgp⟩)
    cases hL : List.insertionSort abrGe (formats.filter bestAudioPred) with
    | nil => rw [hL] at hgs; simp at hgs
    | cons b rest =>
      have hbs : b ∈ List.insertionSort abrGe (formats.filter bestAudioPred) := by
        rw [hL]; exact List.mem_cons_self b rest
      have hbf := List.mem_filter.mp ((List.mem_insertionSort abrGe).mp hbs)
      have hsorted := List.sorted_insertionSort abrGe (formats.filter bestAudioPred)
      rw [hL] at hsorted
      have hmax : ∀ x ∈ rest, abrOf x ≤ abrOf b :=
        fun x hx => (List.sorted_cons.mp hsorted).1 x hx
      refine ⟨b, hbf.1, hbf.2, ?_, ?_⟩
      · intro g' hg' hg'p
        have hmem : g' ∈ List.insertionSort abrGe (formats.filter bestAudioPred) :=
          (List.mem_insertionSort abrGe).mpr (List.mem_filter.mpr ⟨hg', hg'p⟩)
        rw [hL] at hmem
        rcases List.mem_cons.mp hmem with rfl | h'
        · exact le_refl _
        · exact hmax _ h'
      · simp [bestAudioSize, hL]

/-- Witness for the amended C3 theorem at concrete inputs. -/
theorem video_combined_size_correct_witness :
    (∃ f, f ∈ [exZeroSize] ∧ videoPred f = true
      ∧ (mkVideoProcessed (bestAudioSize [exZeroSize]) exZeroSize).contentLength =
          (if 0 < filesizeOrZero f + bestAudioSize [exZeroSize]
           then some (toString (filesizeOrZero f + bestAudioSize [exZeroSize])) else none)
      ∧ ((mkVideoProcessed (bestAudioSize [exZeroSize]) exZeroSize).contentLength = none
          ↔ filesizeOrZero f + bestAudioSize [exZeroSize] = 0))
    ∧ bestAudioSize [exV1] = 0
    ∧ (∃ b, b ∈ [exMux] ∧ bestAudioPred b = true
        ∧ (∀ g', g' ∈ [exMux] → bestAudioPred g' = true → abrOf g' ≤ abrOf b)
        ∧ bestAudioSize [exMux] = filesizeOrZero b) :=
  ⟨video_combined_size_correct.1 [exZeroSize]
      (mkVideoProcessed (bestAudioSize [exZeroSize]) exZeroSize) (by decide),
   video_combined_size_correct.2.1 [exV1] (by decide),
   video_combined_size_correct.2.2 [exMux] exMux (by decide) (by decide)⟩

/-- Claim C4 counterexample: with two 128 kbps audio-only descriptors the
audio list keeps both, so its entries are not strictly decreasing in
bitrate (both carry the "128kbps" label). -/
theorem audio_not_strictly_decreasing_counterexample :
    audioKept [exA1, exA2] = [exA1, exA2]
    ∧ ¬ List.Pairwise (fun a b => abrOf b < abrOf a) (audioKept [exA1, exA2])
    ∧ (processAudioFormats [exA1, exA2]).map ProcessedFormat.quality =
        ["128kbps", "128kbps"] := by
  decide

/-- Claim C4 (amended): the audio output has length at most 3, is the
per-entry projection of the kept audio formats, and those are ordered by
non-increasing (not necessarily strictly decreasing) bitrate. -/
theorem audio_output_top3_sorted :
    (∀ formats : List YTDlpFormat, (processAudioFormats formats).length ≤ 3)
    ∧ (∀ formats : List YTDlpFormat,
        processAudioFormats formats = (audioKept formats).map mkAudioProcessed)
    ∧ (∀ formats : List YTDlpFormat,
        List.Pairwise (fun a b => abrOf b ≤ abrOf a) (audioKept formats)) := by
  refine ⟨?_, fun _ => rfl, ?_⟩
  · intro formats
    have hm : (processAudioFormats formats).length = (audioKept formats).length :=
      List.length_map _ _
    rw [hm]
    exact List.length_take_le 3 (List.insertionSort abrGe (formats.filter audioPred))
  · intro formats
    exact (List.sorted_insertionSort abrGe (formats.filter audioPred)).sublist
      (List.take_sublist _ _)

theorem eq_of_isPrefix_of_length_le {α : Type} {r v : List α}
    (h : List.IsPrefix r v) (hl : v.length ≤ r.length) : r = v := by
  obtain ⟨u, rfl⟩ := h
  have hu : u.length = 0 := by
    rw [List.length_append] at hl
    omega
  rw [List.length_eq_zero.mp hu, List.append_nil]

theorem isPrefix_filter_of_all {α : Type} (p : α → Bool) {r v : List α}
    (h : List.IsPrefix r v) (hr : ∀ x ∈ r, p x = true) :
    List.IsPrefix r (v.filter p) := by
  obtain ⟨u, rfl⟩ := h
  rw [List.filter_append, List.filter_eq_self.mpr hr]
  exact ⟨u.filter p, rfl⟩

theorem isPrefix_take_of_isPrefix {α : Type} {r v : List α}
    (h : List.IsPrefix r v) (n : Nat) : List.IsPrefix (r.take n) (v.take n) := by
  obtain ⟨u, rfl⟩ := h
  rw [List.take_append_eq_append_take]
  exact ⟨u.take (n - r.length), rfl⟩

theorem foldl_addHistory_keeps_last50 :
    ∀ items : List DownloadHistoryItem, List.Pairwise pathNe items →
      ∀ s, List.IsPrefix (items.reverse.take 50) (items.foldl addDownloadToHistory s) := by
  intro items
  induction items using List.reverseRecOn with
  | nil =>
    intro _ s
    exact ⟨s, by simp⟩
  | append_singleton I i ih =>
    intro hpw s
    have hpwI : List.Pairwise pathNe I := hpw.sublist (List.sublist_append_left I [i])
    have hcross : ∀ x ∈ I, x.filePath ≠ i.filePath := by
      intro x hx
      exact (List.pairwise_append.mp hpw).2.2 x hx i (List.mem_singleton_self i)
    rw [List.foldl_append]
    have hpre := ih hpwI s
    have hr_elems : ∀ x ∈ I.reverse.take 50,
        (x.filePath != i.filePath) = true := by
      intro x hx
      exact bne_iff_ne.mpr (hcross x (List.mem_reverse.mp (List.mem_of_mem_take hx)))
    have h1 : List.IsPrefix (I.reverse.take 50)
        ((I.foldl addDownloadToHistory s).filter (fun h => h.filePath != i.filePath)) :=
      isPrefix_filter_of_all _ hpre hr_elems
    have h2 := isPrefix_take_of_isPrefix h1 49
    rw [List.take_take] at h2
    norm_num at h2
    have hrev : (I ++ [i]).reverse = i :: I.reverse := by simp
    rw [hrev]
    show List.IsPrefix (i :: I.reverse.take 49)
      (i :: ((I.foldl addDownloadToHistory s).filter
        (fun h => h.filePath != i.filePath)).take 49)
    obtain ⟨u, hu⟩ := h2
    exact ⟨u, by rw [List.cons_append, hu]⟩

theorem foldl_addHistory_length_le :
    ∀ (items s : List DownloadHistoryItem), items ≠ [] →
      (items.foldl addDownloadToHistory s).length ≤ 50 := by
  intro items
  induction items using List.reverseRecOn with
  | nil =>
    intro s h
    exact absurd rfl h
  | append_singleton I i _ =>
    intro s _
    rw [List.foldl_append]
    show ((i :: (I.foldl addDownloadToHistory s).filter
      (fun h => h.filePath != i.filePath)).take 50).length ≤ 50
    exact List.length_take_le _ _

/-- Claim C5: each append leaves at most 50 stored entries, and a run of at
least 50 appends with pairwise-distinct paths — from any starting history —
leaves exactly the 50 most recently appended items in newest-first order,
the oldest appended and all pre-existing entries having been evicted. -/
theorem history_cap_and_newest50_retention :
    (∀ (s : List DownloadHistoryItem) (i : DownloadHistoryItem),
      (addDownloadToHistory s i).length ≤ 50)
    ∧ (∀ s items : List DownloadHistoryItem,
        List.Pairwise pathNe items → 50 ≤ items.length →
        items.foldl addDownloadToHistory s = items.reverse.take 50) := by
  constructor
  · intro s i
    exact List.length_take_le _ _
  · intro s items hpw hlen
    have hpre := foldl_addHistory_keeps_last50 items hpw s
    have hne : items ≠ [] := by
      intro h
      rw [h] at hlen
      simp at hlen
    have hle := foldl_addHistory_length_le items s hne
    have hrlen : (items.reverse.take 50).length = 50 := by
      rw [List.length_take, List.length_reverse]
      omega
    exact (eq_of_isPrefix_of_length_le hpre (by omega)).symm

/-- Witness for the C5 theorem: one concrete append obeys the cap, and 51
distinct-path appends onto the empty history retain the newest 50. -/
theorem history_cap_and_newest50_retention_witness :
    (addDownloadToHistory [] exItemC2).length ≤ 50
    ∧ exManyItems.foldl addDownloadToHistory [] = exManyItems.reverse.take 50 :=
  ⟨history_cap_and_newest50_retention.1 [] exItemC2,
   history_cap_and_newest50_retention.2 [] exManyItems (by decide) (by decide)⟩

/-- Witness for the C2 theorem: a concrete member of the appended history's
tail does not carry the new path, and on the concrete position-3 history path
distinctness is preserved by the append. -/
theorem history_append_dedups_by_path_witness :
    (exOther 0).filePath ≠ exItemC2.filePath
    ∧ List.Pairwise pathNe (addDownloadToHistory exHistC2 exItemC2) :=
  ⟨(history_append_dedups_by_path.1 exHistC2 exItemC2).2.1 (exOther 0) (by decide),
   (history_append_dedups_by_path.1 exHistC2 exItemC2).2.2 (by decide)⟩

/-- Claim C6: the sanitization applied before building the save-dialog
filename removes every occurrence of each reserved character and leaves all
other characters unchanged in their original relative order (the result is a
sublist of the title, contains no reserved character, and preserves the
multiplicity of every non-reserved character). -/
theorem sanitize_strips_reserved_chars :
    ∀ title : String,
      List.Sublist (sanitizedTitle title).data title.data
      ∧ (∀ c : Char, isFilenameForbidden c = true → c ∉ (sanitizedTitle title).data)
      ∧ (∀ c : Char, isFilenameForbidden c = false →
          (sanitizedTitle title).data.count c = title.data.count c) := by
  intro title
  refine ⟨List.filter_sublist _, ?_, ?_⟩
  · intro c hc hmem
    have hp := (List.mem_filter.mp hmem).2
    simp [hc] at hp
  · intro c hc
    exact List.count_filter (by simp [hc])

/-- Witness for the C6 theorem on a concrete title holding reserved and
ordinary characters. -/
theorem sanitize_strips_reserved_chars_witness :
    ('\\' ∉ (sanitizedTitle "a\\b:c?d").data)
    ∧ (sanitizedTitle "a\\b:c?d").data.count 'a' = "a\\b:c?d".data.count 'a' :=
  ⟨(sanitize_strips_reserved_chars "a\\b:c?d").2.1 '\\' (by decide),
   (sanitize_strips_reserved_chars "a\\b:c?d").2.2 'a' (by decide)⟩

/-- Claim C7: the startup provisioning fetches from the release distribution
if and only if the binary is absent at its fixed path — no fetch effect when
the file exists, and exactly one fetch, targeting that path, when it does
not. -/
theorem provision_fetches_iff_absent :
    ∀ (binaryExists : Bool) (p : String),
      (binaryExists = true → (provisionBinary binaryExists p).filter isFetch = [])
      ∧ (binaryExists = false →
          (provisionBinary binaryExists p).filter isFetch =
            [StartupEffect.fetchFromGithub p]) := by
  intro b p
  cases b
  · exact ⟨fun h => Bool.noConfusion h, fun _ => rfl⟩
  · exact ⟨fun _ => rfl, fun h => Bool.noConfusion h⟩

/-- Witness for the C7 theorem at a concrete binary path, in both the
present and the absent case. -/
theorem provision_fetches_iff_absent_witness :
    (provisionBinary true "/data/binaries/yt-dlp").filter isFetch = []
    ∧ (provisionBinary false "/data/binaries/yt-dlp").filter isFetch =
        [StartupEffect.fetchFromGithub "/data/binaries/yt-dlp"] :=
  ⟨(provision_fetches_iff_absent true "/data/binaries/yt-dlp").1 rfl,
   (provision_fetches_iff_absent false "/data/binaries/yt-dlp").2 rfl⟩

/-- Claim C8 (code bug): after the `will-quit` reaper force-kills tracked
process 7, the close handler that subsequently fires for it still appends
the history item and still sends the `download-complete` notification — the
handler never consults the shutdown kill before recording, exactly the
conflation the specification flags. -/
theorem shutdown_killed_close_still_records :
    7 ∈ (willQuitReaper exShutdownState).killedAtShutdown
    ∧ (onDownloadClose 7 "137" "/dl/video.mp4" exKilledItem
        (willQuitReaper exShutdownState)).downloadHistory = [exKilledItem]
    ∧ UiNotification.downloadComplete "137" "/dl/video.mp4" ∈
        (onDownloadClose 7 "137" "/dl/video.mp4" exKilledItem
          (willQuitReaper exShutdownState)).sent := by
  decide

/-- Claim C9: when the metadata fetch fails, the `get-video-info` handler
answers with an error-field result object instead of propagating the
exception, and when the thrown value is an `Error` its message is surfaced
verbatim. -/
theorem get_video_info_surfaces_errors :
    ∀ e : ThrownValue,
      (∃ msg, getVideoInfoHandler (Except.error e) = VideoInfoResult.errorResult msg)
      ∧ (∀ m, e = ThrownValue.errorObj m →
          getVideoInfoHandler (Except.error e) = VideoInfoResult.errorResult m) := by
  intro e
  refine ⟨⟨errorMessageOf e, rfl⟩, ?_⟩
  intro m hm
  rw [hm]
  rfl

/-- Witness for the C9 theorem on a concrete `Error`. -/
theorem get_video_info_surfaces_errors_witness :
    getVideoInfoHandler (Except.error (ThrownValue.errorObj "HTTP Error 404")) =
      VideoInfoResult.errorResult "HTTP Error 404" :=
  (get_video_info_surfaces_errors (ThrownValue.errorObj "HTTP Error 404")).2
    "HTTP Error 404" rfl

/-- Claim C10: the `set-download-path` handler leaves the persisted path
untouched and replies with the stored value when the dialog is cancelled or
returns no selection; only an actual selection is persisted and returned. -/
theorem set_download_path_cancel_keeps_stored :
    ∀ (canceled : Bool) (filePaths : List String) (store : StoreState),
      ((canceled = true ∨ filePaths = []) →
        setDownloadPathHandler canceled filePaths store = (store.downloadPath, store))
      ∧ (∀ p rest, canceled = false → filePaths = p :: rest →
        setDownloadPathHandler canceled filePaths store =
          (p, { store with downloadPath := p })) := by
  intro c fps st
  constructor
  · rintro (rfl | rfl)
    · cases fps <;> rfl
    · cases c <;> rfl
  · rintro p rest rfl rfl
    rfl

/-- Witness for the C10 theorem on a concrete store, in both the cancelled
and the selected case. -/
theorem set_download_path_cancel_keeps_stored_witness :
    setDownloadPathHandler true [] exStore = (exStore.downloadPath, exStore)
    ∧ setDownloadPathHandler false ["/mnt/media"] exStore =
        ("/mnt/media", { exStore with downloadPath := "/mnt/media" }) :=
  ⟨(set_download_path_cancel_keeps_stored true [] exStore).1 (Or.inl rfl),
   (set_download_path_cancel_keeps_stored false ["/mnt/media"] exStore).2
     "/mnt/media" [] rfl rfl⟩

end YDownload
